import Mathlib

/-
Verification development for the fabric-catalog extraction and crawl engine
(backend/app/scrapers/*, backend/app/utils.py).

The scrapers operate on parsed HTML trees produced by BeautifulSoup (an
external library) and on HTTP responses (external network).  The embedding
therefore models a parsed document as an explicit tree (`Node`) and the
network as an explicit oracle (`World`, `NetOutcome`); everything downstream
of fetching and parsing is translated from the source line by line.  Python
floats are modeled as exact rationals; Python dicts of optional fields as a
structure of `Option` fields; exceptions as `Except Unit`.
-/

/-! ## String utilities (Python semantics helpers) -/

/-- Characters Python `str.split()` and `str.strip()` treat as whitespace
(ASCII approximation, which covers every string the scrapers build). -/
def isWs (c : Char) : Bool :=
  c == ' ' || c == '\t' || c == '\n' || c == '\r' || c == '\x0b' || c == '\x0c'

/-- Substring test on character lists: Python `needle in hay`.
An empty needle is contained in everything, as in Python. -/
def lcContains (needle : List Char) : List Char → Bool
  | [] => needle.isEmpty
  | c :: t => if needle.isPrefixOf (c :: t) then true else lcContains needle t

/-- Python `sub in s`. -/
def strContains (s sub : String) : Bool := lcContains sub.data s.data

/-- Case-insensitive containment, for regexes compiled with `re.IGNORECASE`
(ASCII lowering, as in the source's ASCII patterns). -/
def strContainsCI (s sub : String) : Bool :=
  lcContains (sub.data.map Char.toLower) (s.data.map Char.toLower)

/-- Python `str.split()` with no argument: split on whitespace runs,
dropping empty pieces. -/
def splitWsGo : List Char → List Char → List (List Char)
  | [], cur => if cur.isEmpty then [] else [cur.reverse]
  | c :: t, cur =>
      if isWs c then
        if cur.isEmpty then splitWsGo t [] else cur.reverse :: splitWsGo t []
      else splitWsGo t (c :: cur)

/-- Python `str.split()` on a string. -/
def splitWs (s : String) : List String := (splitWsGo s.data []).map fun cs => (⟨cs⟩ : String)

/-- Python `str.strip()` on a character list. -/
def lcStrip (cs : List Char) : List Char :=
  ((cs.dropWhile isWs).reverse.dropWhile isWs).reverse

/-- Python `str.strip()`. -/
def pyStrip (s : String) : String := ⟨lcStrip s.data⟩

/-- Replacement loop of Python str.replace, with explicit fuel (the input
length): each step consumes at least one character.  An empty pattern is
never passed by the scrapers; it is treated as matching nowhere. -/
def lcReplaceGo : Nat → List Char → List Char → List Char → List Char
  | 0, _, _, _ => []
  | _ + 1, [], _, _ => []
  | fuel + 1, c :: t, pat, rep =>
      if !pat.isEmpty && pat.isPrefixOf (c :: t) then
        rep ++ lcReplaceGo fuel (t.drop (pat.length - 1)) pat rep
      else c :: lcReplaceGo fuel t pat rep

/-- Python str.replace(pat, rep): replace every occurrence, scanning left
to right. -/
def pyReplace (s pat rep : String) : String :=
  ⟨lcReplaceGo s.data.length s.data pat.data rep.data⟩

/-- Split on a single-character separator, keeping empty pieces (Python
str.split(sep) and Lean String.splitOn agree on this). -/
def lcSplitGo (sep : Char) : List Char → List Char → List (List Char)
  | [], cur => [cur.reverse]
  | c :: t, cur =>
      if c == sep then cur.reverse :: lcSplitGo sep t [] else lcSplitGo sep t (c :: cur)

/-- Split a string on a single-character separator. -/
def splitOnChar (sep : Char) (s : String) : List String :=
  (lcSplitGo sep s.data []).map fun cs => (⟨cs⟩ : String)

/-- Join with a separator (Python sep.join). -/
def joinSep (sep : String) : List String → String
  | [] => ""
  | [s] => s
  | s :: rest => s ++ sep ++ joinSep sep rest

/-- Python str.startswith. -/
def pyStartsWith (s pre : String) : Bool := pre.data.isPrefixOf s.data

/-- ASCII lowering of a whole string (str.lower on the ASCII URLs the
scrapers compare). -/
def lowerStr (s : String) : String := ⟨s.data.map Char.toLower⟩

/-- Truthiness of an optional string value in Python: a missing value and
the empty string are falsy. -/
def pyTruthy : Option String → Bool
  | some s => s != ""
  | none => false

/-- Numeric value of a digit run (most significant first). -/
def digitsToNat (cs : List Char) : ℕ := cs.foldl (fun a c => a * 10 + (c.toNat - 48)) 0

/-- Python `float(s)` on plain decimal numerals, modeled exactly as a
rational.  Returns none where Python raises ValueError.  Exponent and
special forms are not modeled; no call site can produce them because every
argument is a regex group of shape digits-separator-digits. -/
def pyFloat (s : String) : Option ℚ :=
  let cs := lcStrip s.data
  let sgn : ℚ := match cs with
    | '-' :: _ => -1
    | _ => 1
  let cs1 : List Char := match cs with
    | '-' :: t => t
    | '+' :: t => t
    | _ => cs
  let ip := cs1.takeWhile Char.isDigit
  let rest := cs1.dropWhile Char.isDigit
  match rest with
  | [] => if ip.isEmpty then none else some (sgn * (digitsToNat ip : ℚ))
  | '.' :: fp =>
      let fd := fp.takeWhile Char.isDigit
      let tail := fp.dropWhile Char.isDigit
      if tail.isEmpty && (!ip.isEmpty || !fd.isEmpty) then
        some (sgn * ((digitsToNat ip : ℚ) + (digitsToNat fd : ℚ) / ((10 : ℚ) ^ fd.length)))
      else none
  | _ => none

/-- Embedding of BaseScraper.clean_text: `if not text: return None;
return ' '.join(text.split()).strip()`.  Note the result is `some ""` (not
`none`) on a nonempty all-whitespace input, exactly as in Python. -/
def clean_text (s : String) : Option String :=
  if s = "" then none
  else some (pyStrip (joinSep " " (splitWs s)))

/-! ## Parsed documents (BeautifulSoup output) and CSS-style selection -/

/-- A parsed HTML node.  BeautifulSoup (external library) turns the fetched
body into such a tree; worlds deliver trees directly. -/
inductive Node where
  | elem (tag : String) (attrs : List (String × String)) (children : List Node)
  | text (s : String)

mutual

/-- Tag.get_text(): concatenation of all descendant strings, no separator. -/
def nodeText : Node → String
  | .text s => s
  | .elem _ _ cs => nodesText cs

def nodesText : List Node → String
  | [] => ""
  | n :: t => nodeText n ++ nodesText t

end

/-- Tag.get(name): first binding of an attribute. -/
def nodeAttr (n : Node) (name : String) : Option String :=
  match n with
  | .elem _ a _ => a.lookup name
  | .text _ => none

/-- Tag and attributes of an element, used for ancestor matching. -/
abbrev TagAttrs := String × List (String × String)

mutual

/-- All elements of a subtree in document (preorder) order, each paired with
its ancestor chain (nearest first). -/
def allElems (anc : List TagAttrs) : Node → List (Node × List TagAttrs)
  | .text _ => []
  | .elem t a cs => (Node.elem t a cs, anc) :: allElemsL ((t, a) :: anc) cs

def allElemsL (anc : List TagAttrs) : List Node → List (Node × List TagAttrs)
  | [] => []
  | n :: rest => allElems anc n ++ allElemsL anc rest

end

/-- Attribute conditions appearing in the source's CSS selectors:
`[a*="v"]` (substring), `[a="v"]` (equality), `[a]` (presence). -/
inductive AttrCond where
  | containsVal (name val : String)
  | eqVal (name val : String)
  | present (name : String)
deriving DecidableEq, Repr

/-- A simple selector: optional tag name, optional `.class` token, and
attribute conditions. -/
structure SimpleSel where
  tag : Option String := none
  classTok : Option String := none
  conds : List AttrCond := []
deriving DecidableEq, Repr

/-- A selector as used in the source: either simple or one descendant
combinator (`anc d`). -/
inductive Sel where
  | simple (s : SimpleSel)
  | desc (anc d : SimpleSel)
deriving DecidableEq, Repr

/-- Multi-valued class attribute: CSS `.tok` matches a whitespace-separated
token of the class attribute. -/
def classTokens (attrs : List (String × String)) : List String :=
  match attrs.lookup "class" with
  | some s => splitWs s
  | none => []

/-- Does one attribute condition hold of an element's attributes? -/
def condHolds (attrs : List (String × String)) : AttrCond → Bool
  | .containsVal n v =>
      match attrs.lookup n with
      | some s => strContains s v
      | none => false
  | .eqVal n v => attrs.lookup n == some v
  | .present n => (attrs.lookup n).isSome

/-- Does a simple selector match an element? -/
def simpleMatches (s : SimpleSel) (ta : TagAttrs) : Bool :=
  (match s.tag with | some t => ta.1 == t | none => true) &&
  (match s.classTok with | some tok => (classTokens ta.2).contains tok | none => true) &&
  s.conds.all (condHolds ta.2)

/-- Does a selector match an element given its ancestor chain? -/
def selMatches (sel : Sel) (p : Node × List TagAttrs) : Bool :=
  match sel, p with
  | .simple s, (n, _) =>
      match n with
      | .elem t a _ => simpleMatches s (t, a)
      | .text _ => false
  | .desc a d, (n, ancs) =>
      match n with
      | .elem t aa _ => simpleMatches d (t, aa) && ancs.any (simpleMatches a)
      | .text _ => false

/-- soup.select(sel): all matches in document order. -/
def selectAll (sel : Sel) (doc : Node) : List Node :=
  ((allElems [] doc).filter (selMatches sel)).map (·.1)

/-- soup.select_one(sel): first match in document order. -/
def selectOne (sel : Sel) (doc : Node) : Option Node :=
  (selectAll sel doc).head?

/-- soup.find(tag): first element with the given tag name. -/
def findTag (tag : String) (doc : Node) : Option Node :=
  selectOne (.simple { tag := some tag }) doc

/-- soup.find_all(tag): all elements with the given tag name, in order. -/
def findAllTags (tag : String) (doc : Node) : List Node :=
  selectAll (.simple { tag := some tag }) doc

mutual

/-- All text nodes of a subtree with their immediate parent element, in
document order (soup.find_all(string=...) plus find_parent()). -/
def textNodesPar : Node → List (String × Node)
  | .text _ => []
  | .elem t a cs => textNodesParL (Node.elem t a cs) cs

def textNodesParL (par : Node) : List Node → List (String × Node)
  | [] => []
  | .text s :: rest => (s, par) :: textNodesParL par rest
  | .elem t a cs :: rest => textNodesPar (Node.elem t a cs) ++ textNodesParL par rest

end

/-- Strict descendants of a node in document order (BeautifulSoup
`tag.find(...)` searches descendants, never the tag itself). -/
def descendantElems (n : Node) : List Node :=
  match n with
  | .text _ => []
  | .elem _ _ cs => (allElemsL [] cs).map (·.1)

/-! ## URL helpers (urllib.parse, for the URL shapes the scrapers build) -/

/-- Find the first :// of a URL and split around it. -/
def lcFindScheme : List Char → Option (List Char × List Char)
  | [] => none
  | ':' :: '/' :: '/' :: rest => some ([], rest)
  | c :: t => (lcFindScheme t).map (fun p => (c :: p.1, p.2))

/-- Split a URL at the first scheme separator. -/
def urlSplitScheme (url : String) : Option (String × String) :=
  (lcFindScheme url.data).map (fun p => ((⟨p.1⟩ : String), (⟨p.2⟩ : String)))

/-- urlparse(url).scheme for scheme-qualified URLs. -/
def urlScheme (url : String) : String :=
  match urlSplitScheme url with
  | some (s, _) => s
  | none => ""

/-- urlparse(url).netloc for scheme-qualified URLs. -/
def urlNetloc (url : String) : String :=
  match urlSplitScheme url with
  | some (_, rest) => ⟨rest.data.takeWhile (fun c => c != '/' && c != '?' && c != '#')⟩
  | none => ""

/-- urlparse(url).path. -/
def urlPath (url : String) : String :=
  match urlSplitScheme url with
  | some (_, rest) =>
      ⟨(rest.data.dropWhile (fun c => c != '/' && c != '?' && c != '#')).takeWhile
        (fun c => c != '?' && c != '#')⟩
  | none => ⟨url.data.takeWhile (fun c => c != '?' && c != '#')⟩

/-- urlparse(url).query: text after the first question mark, fragment
stripped. -/
def urlQuery (url : String) : String :=
  match splitOnChar '?' url with
  | _ :: q :: rest => ⟨(joinSep "?" (q :: rest)).data.takeWhile (fun c => c != '#')⟩
  | _ => ""

/-- Simplified model of urllib.parse.urljoin for the plain relative-path
case (the only case the scrapers can reach it with): drop the base's last
path segment and append the relative reference.  No claim, witness or
counterexample exercises this branch. -/
def urljoinApprox (base rel : String) : String :=
  let r := base.data.reverse.dropWhile (fun c => c != '/')
  if r.isEmpty then rel else (⟨r.reverse⟩ : String) ++ rel

/-! ## Hand-compiled regular expressions

Each Python regex used by the scrapers is translated into an explicit
matcher over character lists.  Search (`re.search`) tries start positions
left to right; at a fixed position greedy runs are maximal, which is
faithful here because in every pattern the character following a run is
excluded from the run's class, so backtracking a run can never help. -/

/-- re.search driver: try the position matcher at every suffix, leftmost
first. -/
def searchAt {α : Type} (f : List Char → Option α) : List Char → Option α
  | [] => f []
  | c :: t =>
      match f (c :: t) with
      | some r => some r
      | none => searchAt f t

/-- Boolean re.search driver. -/
def searchAnywhere (p : List Char → Bool) : List Char → Bool
  | [] => p []
  | c :: t => p (c :: t) || searchAnywhere p t

/-- Case-insensitive ASCII character equality (re.IGNORECASE). -/
def chEqCI (c d : Char) : Bool := c.toLower == d.toLower

/-- Case-insensitive literal prefix; returns the prefix as it appears in
the text together with the rest. -/
def ciPrefix : List Char → List Char → Option (List Char × List Char)
  | [], cs => some ([], cs)
  | _ :: _, [] => none
  | l :: lt, c :: ct =>
      if chEqCI c l then (ciPrefix lt ct).map (fun p => (c :: p.1, p.2)) else none

/-- Position matcher for the first base-scraper price pattern
[\$£€]?\s*(\d+[\.,]\d{2}); returns group 1.  The optional currency symbol
is consumed when present: the symbol can match neither \s* nor \d+, so the
non-consuming alternative always fails when the symbol is there. -/
def basePriceP1At (cs : List Char) : Option String :=
  let cs1 := match cs with
    | c :: t => if c == '$' || c == '£' || c == '€' then t else c :: t
    | [] => []
  let cs2 := cs1.dropWhile isWs
  let ds := cs2.takeWhile Char.isDigit
  let rest := cs2.dropWhile Char.isDigit
  if ds.isEmpty then none
  else
    match rest with
    | s :: d1 :: d2 :: _ =>
        if (s == '.' || s == ',') && d1.isDigit && d2.isDigit then
          some ⟨ds ++ s :: d1 :: d2 :: []⟩
        else none
    | _ => none

/-- Position matcher for the second base-scraper price pattern
(\d+[\.,]\d{2})\s*(USD|EUR|GBP); returns group 1. -/
def basePriceP2At (cs : List Char) : Option String :=
  let ds := cs.takeWhile Char.isDigit
  let rest := cs.dropWhile Char.isDigit
  if ds.isEmpty then none
  else
    match rest with
    | s :: d1 :: d2 :: rest2 =>
        if (s == '.' || s == ',') && d1.isDigit && d2.isDigit then
          let rest3 := rest2.dropWhile isWs
          if ["USD", "EUR", "GBP"].any (fun cur => cur.data.isPrefixOf rest3) then
            some ⟨ds ++ s :: d1 :: d2 :: []⟩
          else none
        else none
    | _ => none

/-- Embedding of BaseScraper.extract_price (base_scraper.py lines 27-42).
The source strips every comma from the text before the regexes run
(text.replace(',', '')), so the [\.,] alternatives and the later
group(1).replace(',', '.') can only ever see a point. -/
def extract_price (text : String) : Option ℚ :=
  if text = "" then none
  else
    let stripped := (pyReplace text "," "").data
    let try1 :=
      match searchAt basePriceP1At stripped with
      | some g => pyFloat (pyReplace g "," ".")
      | none => none
    match try1 with
    | some q => some q
    | none =>
        match searchAt basePriceP2At stripped with
        | some g => pyFloat (pyReplace g "," ".")
        | none => none

/-- Matcher for 1m\s*to\s*5m under re.IGNORECASE; returns the rest after
the match. -/
def oneToFive (cs : List Char) : Option (List Char) :=
  match cs with
  | '1' :: c :: rest =>
      if chEqCI c 'm' then
        match rest.dropWhile isWs with
        | t :: o :: r2 =>
            if chEqCI t 't' && chEqCI o 'o' then
              match r2.dropWhile isWs with
              | '5' :: m :: r3 => if chEqCI m 'm' then some r3 else none
              | _ => none
            else none
        | _ => none
      else none
  | _ => none

/-- Lazy [^€]*? followed by a matcher: skip the minimal number of
non-euro-sign characters until the continuation matches. -/
def lazySkipNonEuro {α : Type} (p : List Char → Option α) : List Char → Option α
  | [] => p []
  | c :: t =>
      match p (c :: t) with
      | some r => some r
      | none => if c == '€' then none else lazySkipNonEuro p t

/-- Matcher for €(\d+[\.,]\d+), returning the group and the rest. -/
def euroAmountSplit (cs : List Char) : Option (String × List Char) :=
  match cs with
  | '€' :: t =>
      let d1 := t.takeWhile Char.isDigit
      let r1 := t.dropWhile Char.isDigit
      if d1.isEmpty then none
      else
        match r1 with
        | s :: r2 =>
            if s == '.' || s == ',' then
              let d2 := r2.takeWhile Char.isDigit
              let r3 := r2.dropWhile Char.isDigit
              if d2.isEmpty then none else some (⟨d1 ++ s :: d2⟩, r3)
            else none
        | _ => none
  | _ => none

/-- Position matcher for €(\d+[\.,]\d+)/m[^€]*?1m\s*to\s*5m. -/
def fhPriceP1At (cs : List Char) : Option String :=
  match euroAmountSplit cs with
  | none => none
  | some (g, r) =>
      match r with
      | sl :: m :: r4 =>
          if sl == '/' && chEqCI m 'm' then
            match lazySkipNonEuro oneToFive r4 with
            | some _ => some g
            | none => none
          else none
      | _ => none

/-- Position matcher for 1m\s*to\s*5m[^€]*?€(\d+[\.,]\d+). -/
def fhPriceP2At (cs : List Char) : Option String :=
  match oneToFive cs with
  | none => none
  | some r => lazySkipNonEuro (fun cs2 => (euroAmountSplit cs2).map (·.1)) r

/-- Position matcher for €(\d+[\.,]\d+)[^€]*?\|[^€]*?1m\s*to\s*5m. -/
def fhPriceP3At (cs : List Char) : Option String :=
  match euroAmountSplit cs with
  | none => none
  | some (g, r) =>
      match lazySkipNonEuro (fun cs2 => match cs2 with
          | '|' :: t => some t
          | _ => none) r with
      | none => none
      | some r2 =>
          match lazySkipNonEuro (fun cs3 => (oneToFive cs3).map (fun _ => ())) r2 with
          | some _ => some g
          | none => none

/-- Embedding of FabricHouseScraper._extract_price (fabrichouse_scraper.py
lines 273-298) applied to the document's full text.  A zero first price is
falsy in Python, so the fallback drops it, as the source does. -/
def fh_extract_price_text (text : String) : Option ℚ :=
  let tryPat (m : List Char → Option String) : Option ℚ :=
    match searchAt m text.data with
    | some g => pyFloat (pyReplace g "," ".")
    | none => none
  match tryPat fhPriceP1At with
  | some q => some q
  | none =>
      match tryPat fhPriceP2At with
      | some q => some q
      | none =>
          match tryPat fhPriceP3At with
          | some q => some q
          | none =>
              match extract_price text with
              | some q => if q ≠ 0 then some q else none
              | none => none

/-- Character class [A-Z\s,&\-\.()] of the all-caps fallback name regex. -/
def capsClassChar (c : Char) : Bool :=
  c.isUpper || isWs c || c == ',' || c == '&' || c == '-' || c == '.' || c == '(' || c == ')'

/-- re.match of the anchored fallback name pattern ^[A-Z][A-Z\s,&\-\.()]+$
against a whole line. -/
def capsLineMatch (s : String) : Bool :=
  match s.data with
  | c :: rest => c.isUpper && !rest.isEmpty && rest.all capsClassChar
  | [] => false

/-- Fiber alternatives of the first fabric-house composition pattern. -/
def fibersA : List String :=
  ["Wool", "Cotton", "Silk", "Linen", "Cashmere", "Bamboo", "Modal", "Tencel", "Viscose"]

/-- Fiber alternatives of the second fabric-house composition pattern. -/
def fibersB : List String := ["Wool", "Cotton", "Silk", "Linen", "Cashmere"]

/-- Fiber alternatives of the generic composition pattern. -/
def fibersG : List String := ["Wool", "Cotton", "Linen", "Silk"]

/-- Leftmost regex alternation over fiber literals (case-insensitive). -/
def firstFiber (fibers : List String) (r : List Char) : Option (List Char × List Char) :=
  match fibers with
  | [] => none
  | f :: rest =>
      match ciPrefix f.data r with
      | some p => some p
      | none => firstFiber rest r

/-- Tail \s+(?:Virgin\s+)?(?:fibers)[^€\n]* of the fabric-house
composition patterns, after the percent sign; returns the matched tail.
The optional Virgin\s+ is tried first (greedy) and dropped when no fiber
follows it, mirroring regex backtracking. -/
def fhCompTail (fibers : List String) (r1 : List Char) : Option (List Char) :=
  let ws := r1.takeWhile isWs
  let r2 := r1.dropWhile isWs
  if ws.isEmpty then none
  else
    let afterFiber : Option (List Char × List Char) :=
      match ciPrefix "Virgin".data r2 with
      | some (vm, r3) =>
          let ws2 := r3.takeWhile isWs
          let r4 := r3.dropWhile isWs
          if ws2.isEmpty then firstFiber fibers r2
          else
            match firstFiber fibers r4 with
            | some (fm, r5) => some (vm ++ ws2 ++ fm, r5)
            | none => firstFiber fibers r2
      | none => firstFiber fibers r2
    match afterFiber with
    | some (fm, r5) => some (ws ++ fm ++ r5.takeWhile (fun c => c != '€' && c != '\n'))
    | none => none

/-- Position matcher for
(100%\s+(?:Virgin\s+)?(?:Wool|...|Viscose)[^€\n]*). -/
def fhCompP1At (cs : List Char) : Option String :=
  match cs with
  | '1' :: '0' :: '0' :: '%' :: r =>
      (fhCompTail fibersA r).map (fun m => (⟨'1' :: '0' :: '0' :: '%' :: m⟩ : String))
  | _ => none

/-- Position matcher for (\d+%\s+(?:Virgin\s+)?(?:Wool|...|Cashmere)[^€\n]*). -/
def fhCompP2At (cs : List Char) : Option String :=
  let ds := cs.takeWhile Char.isDigit
  let r1 := cs.dropWhile Char.isDigit
  if ds.isEmpty then none
  else
    match r1 with
    | '%' :: r2 => (fhCompTail fibersB r2).map (fun m => (⟨ds ++ '%' :: m⟩ : String))
    | _ => none

/-- Embedding of FabricHouseScraper._extract_composition (lines 300-318):
first match of each pattern in order, whitespace-normalized, kept only
below 100 characters. -/
def fh_extract_composition (text : String) : Option String :=
  let run (m : List Char → Option String) : Option String :=
    match searchAt m text.data with
    | some g =>
        let comp := String.intercalate " " (splitWs (pyStrip g))
        if comp.length < 100 then some comp else none
    | none => none
  match run fhCompP1At with
  | some c => some c
  | none => run fhCompP2At

/-- One repetition \d+%\s*(?:Wool|Cotton|Linen|Silk)[\s/]* of the generic
composition pattern; returns the matched piece and the rest. -/
def gCompUnitAt (cs : List Char) : Option (List Char × List Char) :=
  let ds := cs.takeWhile Char.isDigit
  let r1 := cs.dropWhile Char.isDigit
  if ds.isEmpty then none
  else
    match r1 with
    | '%' :: r2 =>
        let ws := r2.takeWhile isWs
        let r3 := r2.dropWhile isWs
        match firstFiber fibersG r3 with
        | some (fm, r4) =>
            some (ds ++ '%' :: ws ++ fm ++ r4.takeWhile (fun c => isWs c || c == '/'),
                  r4.dropWhile (fun c => isWs c || c == '/'))
        | none => none
    | _ => none

/-- Greedy additional repetitions of the generic composition unit.  Each
unit consumes at least two characters, so the input length bounds the
repetition count. -/
def gCompMore : Nat → List Char → List Char
  | 0, _ => []
  | fuel + 1, cs =>
      match gCompUnitAt cs with
      | none => []
      | some (m, r) => m ++ gCompMore fuel r

/-- Position matcher for (\d+%\s*(?:Wool|Cotton|Linen|Silk)[\s/]*)+,
returning the whole match (group 0). -/
def gCompAt (cs : List Char) : Option String :=
  match gCompUnitAt cs with
  | none => none
  | some (m, r) => some ⟨m ++ gCompMore cs.length r⟩

/-- Position matcher for the width pattern Width[:\s]+(\d+\s*cm) under
re.IGNORECASE; returns group 1. -/
def widthAt (cs : List Char) : Option String :=
  match ciPrefix "Width".data cs with
  | none => none
  | some (_, r1) =>
      let sep := r1.takeWhile (fun c => c == ':' || isWs c)
      let r2 := r1.dropWhile (fun c => c == ':' || isWs c)
      if sep.isEmpty then none
      else
        let ds := r2.takeWhile Char.isDigit
        let r3 := r2.dropWhile Char.isDigit
        if ds.isEmpty then none
        else
          match ciPrefix "cm".data (r3.dropWhile isWs) with
          | some (cm, _) => some ⟨ds ++ r3.takeWhile isWs ++ cm⟩
          | none => none

/-- Position matcher for the weight pattern Weight[:\s]+(\d+\s*g/m) under
re.IGNORECASE; returns group 1. -/
def weightAt (cs : List Char) : Option String :=
  match ciPrefix "Weight".data cs with
  | none => none
  | some (_, r1) =>
      let sep := r1.takeWhile (fun c => c == ':' || isWs c)
      let r2 := r1.dropWhile (fun c => c == ':' || isWs c)
      if sep.isEmpty then none
      else
        let ds := r2.takeWhile Char.isDigit
        let r3 := r2.dropWhile Char.isDigit
        if ds.isEmpty then none
        else
          match ciPrefix "g/m".data (r3.dropWhile isWs) with
          | some (gm, _) => some ⟨ds ++ r3.takeWhile isWs ++ gm⟩
          | none => none

/-- re.search of the product-code pattern F\d{6,10}: an F followed by at
least six digits somewhere in the string. -/
def hasFCode (s : String) : Bool :=
  searchAnywhere (fun cs => match cs with
    | 'F' :: r => decide (6 ≤ (r.takeWhile Char.isDigit).length)
    | _ => false) s.data

/-- re.search of the page-parameter pattern [?&]p=\d+. -/
def hasPageParam (s : String) : Bool :=
  searchAnywhere (fun cs => match cs with
    | c :: 'p' :: '=' :: d :: _ => (c == '?' || c == '&') && d.isDigit
    | _ => false) s.data

/-- re.search of Next|→|> under re.IGNORECASE. -/
def nextTextMatch (s : String) : Bool :=
  strContainsCI s "Next" || strContains s "→" || strContains s ">"

/-! ## Relative-URL absolutization (three source variants) -/

/-- Absolutization used by the selector chains and the product-link pass
(generic_scraper.py lines 91-99, fabrichouse_scraper.py lines 132-138 and
345-351): protocol-relative, then root-relative, then already-absolute,
else urljoin. -/
def absolutizeFull (baseUrl u : String) : String :=
  if pyStartsWith u "//" then "https:" ++ u
  else if pyStartsWith u "/" then urlScheme baseUrl ++ "://" ++ urlNetloc baseUrl ++ u
  else if pyStartsWith u "http" then u
  else urljoinApprox baseUrl u

/-- Absolutization used by the largest-image fallbacks (generic_scraper.py
lines 131-134, fabrichouse_scraper.py lines 380-383): these have no
root-relative branch. -/
def absolutizeNoRoot (baseUrl u : String) : String :=
  if pyStartsWith u "//" then "https:" ++ u
  else if pyStartsWith u "http" then u
  else urljoinApprox baseUrl u

/-- Absolutization used by the product-code fallback (fabrichouse_scraper.py
lines 155-159): this one has no protocol-relative branch. -/
def absolutizeNoProto (baseUrl u : String) : String :=
  if pyStartsWith u "/" then urlScheme baseUrl ++ "://" ++ urlNetloc baseUrl ++ u
  else if pyStartsWith u "http" then u
  else urljoinApprox baseUrl u

/-! ## Data model -/

/-- The normalized record a scrape produces: a Python dict of optional
fields, flattened to a structure of Option fields.  Where the generic
scraper can set the description key to None, the embedding flattens that
to none; no claim distinguishes a missing key from a key holding None. -/
structure FabricData where
  name : Option String := none
  price : Option ℚ := none
  currency : Option String := none
  composition : Option String := none
  image_url : Option String := none
  description : Option String := none
  width : Option String := none
  weight : Option String := none
  url : Option String := none
deriving DecidableEq, Repr

/-- The empty record: the `{}` a scraper returns when its fetch fails. -/
def emptyFabric : FabricData := {}

/-- The network-and-parser oracle.  fetch_html (base_scraper.py lines
16-25) returns None on non-200 status, timeout, or any request exception,
and the page body otherwise; BeautifulSoup (external) parses the body.
fetchDoc is their composition: none exactly when the fetch failed. -/
structure World where
  fetchDoc : String → Option Node

/-- Python `a or b` on optional strings: the left value unless falsy. -/
def orStr (a b : Option String) : Option String := if pyTruthy a then a else b

/-- Python int(s): optional surrounding whitespace, optional sign, digits;
none where int() raises ValueError. -/
def pyInt (s : String) : Option Int :=
  let cs := lcStrip s.data
  let p : Int × List Char := match cs with
    | '-' :: t => (-1, t)
    | '+' :: t => (1, t)
    | _ => (1, cs)
  if !p.2.isEmpty && p.2.all Char.isDigit then some (p.1 * (digitsToNat p.2 : Int)) else none

/-! ## Image-URL extraction -/

/-- Substrings that mark non-content images in the selector chains
(generic_scraper.py line 113, fabrichouse_scraper.py line 354). -/
def blockFull : List String := ["icon", "logo", "avatar", "badge", "button"]

/-- Substrings the largest-image fallbacks skip (generic_scraper.py line
137, fabrichouse_scraper.py line 386). -/
def blockSmall : List String := ["icon", "logo", "avatar"]

/-- Does the lowered URL contain one of the blocked substrings? -/
def blockedUrl (blocks : List String) (u : String) : Bool :=
  blocks.any (fun b => strContains (lowerStr u) b)

/-- Size filter of the selector chains (generic_scraper.py lines 103-110,
fabrichouse_scraper.py lines 357-365): when both width and height
attributes are present and truthy, reject if either parses below 100;
int() raising anywhere accepts the candidate (except: pass).  int(width)
is evaluated first, exactly as in the lazy Python disjunction. -/
def imgSizeOk (width height : Option String) : Bool :=
  if pyTruthy width && pyTruthy height then
    match width, height with
    | some w, some h =>
        match pyInt w with
        | none => true
        | some wi =>
            if wi < 100 then false
            else
              match pyInt h with
              | none => true
              | some hi => if hi < 100 then false else true
    | _, _ => true
  else true

/-- Image selector chain shared by both scrapers (generic_scraper.py lines
68-77); the fabric-house chain appends one more selector. -/
def gImgSelectors : List Sel :=
  [ .simple { tag := some "img", conds := [.containsVal "src" "product"] },
    .desc { classTok := some "product-image" } { tag := some "img" },
    .desc { classTok := some "product-photo" } { tag := some "img" },
    .desc { tag := some "main" } { tag := some "img", conds := [.containsVal "src" "product"] },
    .desc { conds := [.containsVal "class" "product"] } { tag := some "img" },
    .simple { tag := some "img", conds := [.eqVal "itemprop" "image"] },
    .desc { classTok := some "gallery" } { tag := some "img" },
    .simple { tag := some "img", conds := [.containsVal "data-src" "product"] } ]

/-- Image selector chain of FabricHouseScraper._extract_image_url (lines
323-333): the generic chain plus img[alt*="F"]. -/
def fhImgSelectors : List Sel :=
  gImgSelectors ++ [ .simple { tag := some "img", conds := [.containsVal "alt" "F"] } ]

/-- Candidate handling inside the fabric-house selector loop (lines
336-367): URL attribute fallback chain, absolutization, block list, then
the size filter; none means continue to the next selector. -/
def fhImgCandidate (baseUrl : String) (el : Node) : Option String :=
  let raw := orStr (nodeAttr el "src") (orStr (nodeAttr el "data-src")
               (orStr (nodeAttr el "data-lazy-src") (nodeAttr el "data-original")))
  if pyTruthy raw then
    let u := absolutizeFull baseUrl (raw.getD "")
    if blockedUrl blockFull u then none
    else if imgSizeOk (nodeAttr el "width") (nodeAttr el "height") then some u
    else none
  else none

/-- Candidate handling inside the generic selector loop (generic_scraper.py
lines 83-117): same tests, but the size filter runs before the block
list. -/
def gImgCandidate (pageUrl : String) (el : Node) : Option String :=
  let raw := orStr (nodeAttr el "src") (orStr (nodeAttr el "data-src")
               (orStr (nodeAttr el "data-lazy-src") (nodeAttr el "data-original")))
  if pyTruthy raw then
    let u := absolutizeFull pageUrl (raw.getD "")
    if imgSizeOk (nodeAttr el "width") (nodeAttr el "height") then
      if blockedUrl blockFull u then none else some u
    else none
  else none

/-- Largest-image fallback shared by both scrapers (generic_scraper.py
lines 119-153, fabrichouse_scraper.py lines 369-401): fold over all img
elements keeping the largest width-by-height product, missing dimensions
counting as 10000; an unparsable dimension makes the image a fallback only
when nothing was chosen yet, and ties keep the first seen. -/
def largestImgFallback (baseUrl : String) (imgs : List Node) : Option String :=
  (imgs.foldl (fun st img =>
    let raw := orStr (nodeAttr img "src") (nodeAttr img "data-src")
    if !pyTruthy raw then st
    else
      let u := absolutizeNoRoot baseUrl (raw.getD "")
      if blockedUrl blockSmall u then st
      else
        let w := (nodeAttr img "width").getD "0"
        let h := (nodeAttr img "height").getD "0"
        let size? : Option Int :=
          if w != "" && h != "" then
            match pyInt w with
            | none => none
            | some wi =>
                match pyInt h with
                | none => none
                | some hi => some (wi * hi)
          else some 10000
        match size? with
        | some size => if size > st.2 then (some u, size) else st
        | none => if st.1.isNone then (some u, st.2) else st) ((none, 0) : Option String × Int)).1

/-- Embedding of FabricHouseScraper._extract_image_url (lines 320-401). -/
def fh_extract_image_url (doc : Node) (baseUrl : String) : Option String :=
  let fromSel := fhImgSelectors.foldl (fun acc sel =>
    match acc with
    | some _ => acc
    | none =>
        match selectOne sel doc with
        | some el => fhImgCandidate baseUrl el
        | none => none) none
  match fromSel with
  | some u => some u
  | none => largestImgFallback baseUrl (findAllTags "img" doc)

/-! ## Fabric-house field extraction and product-page scrape -/

/-- Name selectors of FabricHouseScraper._extract_name (lines 250-255). -/
def fhNameSelectors : List Sel :=
  [ .simple { classTok := some "product-name" },
    .simple { classTok := some "product-title" },
    .simple { conds := [.containsVal "class" "product-name"] },
    .simple { conds := [.containsVal "class" "product-title"] } ]

/-- Embedding of FabricHouseScraper._extract_name (lines 231-271).  The
title branch evaluates `'|' in name` on the clean_text result, which is
None exactly when the title's raw text is empty: in Python that is a
TypeError, modeled as Except.error. -/
def fh_extract_name (doc : Node) : Except Unit String :=
  let h1Res : Option String :=
    match findTag "h1" doc with
    | some h1 =>
        match clean_text (nodeText h1) with
        | some n => if n != "" && n != "Unknown" then some n else none
        | none => none
    | none => none
  match h1Res with
  | some n => .ok n
  | none =>
      let titleStep : Except Unit (Option String) :=
        match findTag "title" doc with
        | some t =>
            match clean_text (nodeText t) with
            | none => .error ()
            | some nm0 =>
                let nm := if strContains nm0 "|" then pyStrip ((splitOnChar '|' nm0).headD "") else nm0
                if nm != "" && nm != "Unknown" then .ok (some nm) else .ok none
        | none => .ok none
      match titleStep with
      | .error e => .error e
      | .ok (some n) => .ok n
      | .ok none =>
          let selRes : Option String :=
            fhNameSelectors.foldl (fun acc sel =>
              match acc with
              | some _ => acc
              | none =>
                  match selectOne sel doc with
                  | some el =>
                      match clean_text (nodeText el) with
                      | some n => if n != "" && n != "Unknown" then some n else none
                      | none => none
                  | none => none) none
          match selRes with
          | some n => .ok n
          | none =>
              let lines := (((splitOnChar '\n' (nodeText doc))).map pyStrip).filter (fun l => l != "")
              match lines.find? (fun l =>
                  capsLineMatch l && decide (15 < l.length) &&
                  !strContains l "%" && !strContains l "€") with
              | some l => .ok (pyStrip l)
              | none => .ok "Unknown"

/-- Description selectors of _extract_description (lines 405-409). -/
def fhDescSelectors : List Sel :=
  [ .simple { classTok := some "product-description" },
    .simple { classTok := some "description" },
    .simple { conds := [.containsVal "class" "description"] } ]

/-- Embedding of FabricHouseScraper._extract_description (lines 403-418). -/
def fh_extract_description (doc : Node) : Option String :=
  fhDescSelectors.foldl (fun acc sel =>
    match acc with
    | some _ => acc
    | none =>
        match selectOne sel doc with
        | some el =>
            match clean_text (nodeText el) with
            | some d => if d != "" then some d else none
            | none => none
        | none => none) none

/-- Embedding of FabricHouseScraper._extract_width (lines 420-426). -/
def fh_extract_width (doc : Node) : Option String :=
  searchAt widthAt (nodeText doc).data

/-- Embedding of FabricHouseScraper._extract_weight (lines 428-434). -/
def fh_extract_weight (doc : Node) : Option String :=
  searchAt weightAt (nodeText doc).data

/-- Embedding of FabricHouseScraper._scrape_product_page (lines 186-229):
a failed fetch returns the empty dict; each field is added only when its
extracted value is truthy, and a truthy price also fixes the currency to
EUR. -/
def fh_scrape_product_page (w : World) (url : String) : Except Unit FabricData :=
  match w.fetchDoc url with
  | none => .ok emptyFabric
  | some doc =>
      match fh_extract_name doc with
      | .error e => .error e
      | .ok nm =>
          let nameField := if nm != "" then some nm else none
          let priceField :=
            match fh_extract_price_text (nodeText doc) with
            | some q => if q ≠ 0 then some q else none
            | none => none
          let compField :=
            match fh_extract_composition (nodeText doc) with
            | some c => if c != "" then some c else none
            | none => none
          let imgField :=
            match fh_extract_image_url doc url with
            | some u => if u != "" then some u else none
            | none => none
          let descField :=
            match fh_extract_description doc with
            | some d => if d != "" then some d else none
            | none => none
          let widField :=
            match fh_extract_width doc with
            | some s => if s != "" then some s else none
            | none => none
          let wgtField :=
            match fh_extract_weight doc with
            | some s => if s != "" then some s else none
            | none => none
          .ok { name := nameField,
                price := priceField,
                currency := if priceField.isSome then some "EUR" else none,
                composition := compField,
                image_url := imgField,
                description := descField,
                width := widField,
                weight := wgtField }

/-! ## Generic scraper -/

/-- Price selectors of GenericScraper.scrape (lines 45-50). -/
def gPriceSelectors : List Sel :=
  [ .simple { conds := [.containsVal "class" "price"] },
    .simple { conds := [.containsVal "id" "price"] },
    .simple { classTok := some "product-price" },
    .simple { classTok := some "price" } ]

/-- Embedding of the extraction body of GenericScraper.scrape
(generic_scraper.py lines 33-172), on a successfully fetched parsed
document.  The name branch evaluates `'|' in title_text` on the clean_text
result, which is None exactly when the found element's raw text is empty:
a Python TypeError, modeled as Except.error. -/
def genericExtract (pageUrl : String) (doc : Node) : Except Unit FabricData :=
  let nameStep : Except Unit (Option String) :=
    match (findTag "h1" doc).orElse (fun _ => findTag "title" doc) with
    | some t =>
        match clean_text (nodeText t) with
        | none => .error ()
        | some s =>
            if strContains s "|" then .ok (some (pyStrip ((splitOnChar '|' s).headD "")))
            else .ok (some s)
    | none => .ok none
  match nameStep with
  | .error e => .error e
  | .ok nameVal =>
      let priceRes : Option (ℚ × Option String) :=
        gPriceSelectors.foldl (fun acc sel =>
          match acc with
          | some _ => acc
          | none =>
              match selectOne sel doc with
              | some el =>
                  let ptext := clean_text (nodeText el)
                  match extract_price (ptext.getD "") with
                  | some q =>
                      if q ≠ 0 then
                        let pt := ptext.getD ""
                        some (q, if strContains pt "$" then some "USD"
                                 else if strContains pt "£" then some "GBP"
                                 else if strContains pt "€" then some "EUR"
                                 else none)
                      else none
                  | none => none
              | none => none) none
      let imageRes : Option String :=
        let fromSel := gImgSelectors.foldl (fun acc sel =>
          match acc with
          | some _ => acc
          | none =>
              match selectOne sel doc with
              | some el => gImgCandidate pageUrl el
              | none => none) none
        match fromSel with
        | some u => some u
        | none => largestImgFallback pageUrl (findAllTags "img" doc)
      let descRes : Option String :=
        match selectOne (.simple { conds := [.containsVal "class" "description"] }) doc with
        | some el => clean_text (nodeText el)
        | none => none
      let compRes : Option String :=
        match searchAt gCompAt (nodeText doc).data with
        | some g => clean_text g
        | none => none
      .ok { name := nameVal,
            price := priceRes.map (·.1),
            currency := priceRes.bind (·.2),
            composition := compRes,
            image_url := if pyTruthy imageRes then imageRes else none,
            description := descRes }

/-- Embedding of GenericScraper.scrape including the fetch (lines 29-31):
a failed fetch returns the empty dict, not an error. -/
def genericScrape (w : World) (url : String) : Except Unit FabricData :=
  match w.fetchDoc url with
  | none => .ok emptyFabric
  | some doc => genericExtract url doc

/-! ## Fabric-house listing crawl -/

/-- Embedding of _is_listing_page (fabrichouse_scraper.py lines 32-34). -/
def fh_is_listing_page (url : String) : Bool :=
  strContains url "/all-fabrics/" || strContains url "/search" || strContains url "?p="

/-- urllib.parse.parse_qs on a query string: pieces without an equals sign
and pieces with a blank value are dropped; values group under their key in
first-appearance order, split at the first equals sign.  Percent-decoding
is not modeled (no crawl URL contains an escape). -/
def qsAdd (acc : List (String × List String)) (k v : String) : List (String × List String) :=
  match acc with
  | [] => [(k, [v])]
  | (k0, vs) :: rest => if k0 == k then (k0, vs ++ [v]) :: rest else (k0, vs) :: qsAdd rest k v

/-- parse_qs over the pieces of a query string. -/
def parseQs (q : String) : List (String × List String) :=
  (splitOnChar '&' q).foldl (fun acc piece =>
    match splitOnChar '=' piece with
    | [] => acc
    | [_] => acc
    | k :: v1 :: vrest =>
        let v := joinSep "=" (v1 :: vrest)
        if v != "" then qsAdd acc k v else acc) []

/-- Setting query_params['p'] = [str(page)]: an existing key keeps its
position, a new key is appended (Python dict insertion order). -/
def qsSetP (acc : List (String × List String)) (page : Nat) : List (String × List String) :=
  if (acc.lookup "p").isSome then
    acc.map (fun kv => if kv.1 == "p" then ("p", [toString page]) else kv)
  else acc ++ [("p", [toString page])]

/-- urllib.parse.urlencode(..., doseq=True) on unescaped values. -/
def urlencodeDoseq (l : List (String × List String)) : String :=
  joinSep "&" ((l.map (fun kv => kv.2.map (fun v => kv.1 ++ "=" ++ v))).flatten)

/-- Embedding of _build_page_url (lines 102-109). -/
def fh_build_page_url (baseUrl : String) (page : Nat) : String :=
  urlScheme baseUrl ++ "://" ++ urlNetloc baseUrl ++ urlPath baseUrl ++ "?" ++
    urlencodeDoseq (qsSetP (parseQs (urlQuery baseUrl)) page)

/-- Link selectors of _extract_product_urls (lines 117-124). -/
def fhLinkSelectors : List Sel :=
  [ .simple { tag := some "a", conds := [.containsVal "href" "/product/"] },
    .simple { tag := some "a", conds := [.containsVal "href" "/fabric/"] },
    .simple { tag := some "a", conds := [.containsVal "href" "/int/all-fabrics/"] },
    .desc { classTok := some "product-card" } { tag := some "a" },
    .desc { classTok := some "product-item" } { tag := some "a" },
    .desc { conds := [.containsVal "class" "product"] } { tag := some "a", conds := [.present "href"] } ]

/-- Embedding of FabricHouseScraper._extract_product_urls (lines 111-163),
parameterized by the semantics of Python's list(set(...)) on strings: the
final line rebuilds the list through a set, whose iteration order is
hash-based and not fixed by the source, so it enters the embedding as the
function argument setList. -/
def fh_extract_product_urls (setList : List String → List String) (doc : Node)
    (baseUrl : String) : List String :=
  let fromSel := fhLinkSelectors.foldl (fun acc sel =>
    (selectAll sel doc).foldl (fun acc2 link =>
      match nodeAttr link "href" with
      | some href =>
          if href != "" then
            let h := absolutizeFull baseUrl href
            if strContains h "/product/" || strContains h "/fabric/" then
              if !acc2.contains h && !strContains h "?p=" then acc2 ++ [h] else acc2
            else acc2
          else acc2
      | none => acc2) acc) []
  let collected :=
    if fromSel.isEmpty then
      (textNodesPar doc).foldl (fun acc p =>
        if hasFCode p.1 then
          match ((descendantElems p.2).filter (fun n =>
              (match n with
               | .elem t _ _ => t == "a"
               | .text _ => false) && (nodeAttr n "href").isSome)).head? with
          | some link =>
              match nodeAttr link "href" with
              | some href =>
                  if href != "" then
                    let h := absolutizeNoProto baseUrl href
                    if !acc.contains h then acc ++ [h] else acc
                  else acc
              | none => acc
          | none => acc
        else acc) []
    else fromSel
  setList collected

/-- Tag.string of BeautifulSoup: defined when the tag has exactly one
child and that chain bottoms out in a single string (used by
soup.find('a', string=...)). -/
def nodeString : Node → Option String
  | .text s => some s
  | .elem _ _ [c] => nodeString c
  | .elem _ _ _ => none

/-- Embedding of _has_next_page (lines 165-184): three anchor indicators,
each usable only when it carries a truthy href, then any page-parameter
anchor as a weaker signal. -/
def fh_has_next_page (doc : Node) : Bool :=
  let anchors := findAllTags "a" doc
  let nodeStr : Node → Option String := fun n => nodeString n
  let ind1 := (anchors.filter (fun n =>
    match nodeStr n with
    | some s => nextTextMatch s
    | none => false)).head?
  let ind2 := (anchors.filter (fun n =>
    match n with
    | .elem _ a _ => (classTokens a).any (fun tok => strContainsCI tok "next")
    | .text _ => false)).head?
  let ind3 := (anchors.filter (fun n =>
    match nodeAttr n "aria-label" with
    | some v => strContainsCI v "next"
    | none => false)).head?
  let indicatorOk : Option Node → Bool := fun o =>
    match o with
    | some n => pyTruthy (nodeAttr n "href")
    | none => false
  if indicatorOk ind1 || indicatorOk ind2 || indicatorOk ind3 then true
  else
    anchors.any (fun n =>
      match nodeAttr n "href" with
      | some h => hasPageParam h
      | none => false)

/-- Return shape of _scrape_listing_page (lines 96-100). -/
structure ListingResult where
  fabrics : List FabricData
  is_listing_page : Bool
  total_count : Nat
deriving DecidableEq, Repr

/-- Keep test of the listing loop (line 68): the record dict is truthy,
its name value is truthy, and the name differs from the Unknown
sentinel. -/
def keepFabric (d : FabricData) : Bool :=
  decide (d ≠ emptyFabric) && pyTruthy d.name && d.name != some "Unknown"

/-- One item scrape inside the listing loop (lines 65-76): the try/except
turns any exception into continue, and a kept record gets its source URL
attached. -/
def scrapeKeep (w : World) (u : String) : Option FabricData :=
  match fh_scrape_product_page w u with
  | .error _ => none
  | .ok d => if keepFabric d then some { d with url := some u } else none

/-- The pagination loop of _scrape_listing_page (lines 41-91).  The fuel
argument only bounds recursion depth for Lean: the loop's own safety check
(increment, then break when page exceeds 100) is what stops the crawl, and
every top-level call passes fuel 150, which the bound page + 1 > 100 keeps
from ever reaching 0.  Returns the accumulated kept records and the page
indices processed, in order. -/
def fhListingGo (w : World) (setList : List String → List String) (baseUrl : String) :
    Nat → Nat → List FabricData × List Nat
  | 0, _ => ([], [])
  | fuel + 1, page =>
      match w.fetchDoc (fh_build_page_url baseUrl page) with
      | none => ([], [page])
      | some doc =>
          let urls := fh_extract_product_urls setList doc baseUrl
          if urls.isEmpty then ([], [page])
          else
            let kept := urls.filterMap (scrapeKeep w)
            if !fh_has_next_page doc then (kept, [page])
            else if page + 1 > 100 then (kept, [page])
            else
              let nxt := fhListingGo w setList baseUrl fuel (page + 1)
              (kept ++ nxt.1, page :: nxt.2)

/-- Embedding of _scrape_listing_page (lines 36-100): run the loop from
page 1 and wrap the accumulated records in the listing return shape. -/
def fh_scrape_listing_page (w : World) (setList : List String → List String)
    (url : String) : ListingResult :=
  let r := fhListingGo w setList url 150 1
  { fabrics := r.1, is_listing_page := true, total_count := r.1.length }

/-- Page indices a listing crawl processes, in iteration order. -/
def fhListingTrace (w : World) (setList : List String → List String) (url : String) : List Nat :=
  (fhListingGo w setList url 150 1).2

/-- Result of FabricHouseScraper.scrape (lines 16-30): listing crawl or
single product scrape, dispatched on the URL shape. -/
inductive ScrapeResult where
  | listing (r : ListingResult)
  | product (r : Except Unit FabricData)

/-- Embedding of FabricHouseScraper.scrape (lines 16-30). -/
def fh_scrape (w : World) (setList : List String → List String) (url : String) : ScrapeResult :=
  if fh_is_listing_page url then .listing (fh_scrape_listing_page w setList url)
  else .product (fh_scrape_product_page w url)

/-! ## Scraper factory -/

/-- Scraper implementations present in the repository. -/
inductive ScraperKind where
  | generic
  | fabricHouse
deriving DecidableEq, Repr

/-- The static registry of scraper_factory.py (lines 10-13): the single
fabrichouse.com entry holds None ("Will be implemented"). -/
def scrapersMap : List (String × Option ScraperKind) := [("fabrichouse.com", none)]

/-- Embedding of ScraperFactory.get_scraper (scraper_factory.py lines
15-27): strip www. from the netloc (str.replace removes every
occurrence), look the domain up, and fall back to the generic scraper
whenever the looked-up value is falsy — an absent key or a None entry. -/
def get_scraper (url : String) : Option ScraperKind :=
  let domain := pyReplace (urlNetloc url) "www." ""
  match scrapersMap.lookup domain with
  | some (some k) => some k
  | _ => some .generic

/-! ## Image resolver (utils.download_image) -/

/-- Outcome of the image GET: fail models an exception raised by the
request itself; resp carries the status, the Content-Type header, and the
body read, where a none body models an exception while reading it (the
connection dropping mid-transfer). -/
inductive NetOutcome where
  | fail
  | resp (status : Nat) (contentType : String) (body : Option (List Nat))

/-- The image directory as a path-to-bytes map, newest binding first. -/
abbrev FileSys := List (String × List Nat)

/-- os.path.exists plus read, on the modeled directory. -/
def fsLookup (fs : FileSys) (p : String) : Option (List Nat) := fs.lookup p

/-- Result of one download_image call: the returned path (None on
failure), the directory afterwards, and how many network fetches were
issued. -/
structure DownloadResult where
  path : Option String
  fs : FileSys
  fetches : Nat
deriving DecidableEq, Repr

/-- Lower-case hex digit of a value below 16. -/
def hexDigit (n : Nat) : Char := if n < 10 then Char.ofNat (48 + n) else Char.ofNat (87 + n)

/-- Stand-in for hashlib.md5(image_url.encode()).hexdigest()[:8].  md5 is
an external library call; the embedding uses a fixed deterministic 32-bit
digest rendered as 8 hex characters, preserving exactly what the source
relies on: the digest is a pure function of the URL. -/
def md5hex8 (s : String) : String :=
  let h := s.data.foldl (fun a c => (a * 131 + c.toNat) % 4294967296) 5381
  ⟨(List.range 8).map (fun i => hexDigit (h / 16 ^ (7 - i) % 16))⟩

/-- Derived cache path of utils.download_image (utils.py lines 26-43):
sanitized display name (ASCII isalnum kept, with space, dash, underscore),
stripped, truncated to 50, spaces to underscores; extension taken from the
URL path (os.path.splitext semantics, leading dots of the basename never
begin an extension), defaulting to .jpg; joined under static/images. -/
def derivePath (imageUrl fabricName : String) : String :=
  let urlHash := md5hex8 imageUrl
  let safe1 := fabricName.data.filter (fun c => c.isAlphanum || c == ' ' || c == '-' || c == '_')
  let safeName : String := ⟨((lcStrip safe1).take 50).map (fun c => if c == ' ' then '_' else c)⟩
  let base := (splitOnChar '/' (urlPath imageUrl)).getLastD ""
  let restChars := base.data.dropWhile (fun c => c == '.')
  let extChars : List Char :=
    if restChars.contains '.' then '.' :: (restChars.reverse.takeWhile (fun c => c != '.')).reverse
    else []
  let ext1 : String := if extChars.isEmpty then ".jpg" else ⟨extChars⟩
  let ext2 := if strContains ext1 "?" then (splitOnChar '?' ext1).headD "" else ext1
  "static/images/" ++ safeName ++ "_" ++ urlHash ++ ext2

/-- Embedding of utils.download_image (utils.py lines 8-71) over the
network oracle and the directory state.  A falsy URL returns None with no
fetch; an existing file at the derived path is returned with no fetch;
otherwise one fetch is issued.  Opening for write creates (truncates) the
file before the body read is awaited — async with aiofiles.open, then
await f.write(await response.read()) — so a body-read failure leaves an
empty file at the path while the call returns None. -/
def download_image (net : String → NetOutcome) (fs : FileSys)
    (imageUrl fabricName : String) : DownloadResult :=
  if imageUrl = "" then { path := none, fs := fs, fetches := 0 }
  else
    let filepath := derivePath imageUrl fabricName
    match fsLookup fs filepath with
    | some _ => { path := some filepath, fs := fs, fetches := 0 }
    | none =>
        match net imageUrl with
        | .fail => { path := none, fs := fs, fetches := 1 }
        | .resp status _ body =>
            if status = 200 then
              match body with
              | some b => { path := some filepath, fs := (filepath, b) :: fs, fetches := 1 }
              | none => { path := none, fs := (filepath, []) :: fs, fetches := 1 }
            else { path := none, fs := fs, fetches := 1 }

/-! ## Concrete fixtures used by witnesses and counterexamples -/

/-- Source page URL for the image-extraction fixtures. -/
def c2Base : String := "https://example.com/p/x"

/-- The image URL of the image-extraction fixtures. -/
def c2Url : String := "https://example.com/images/a.jpg"

/-- A 50 by 50 product-class image inside a product-class container. -/
def c2Doc50 : Node :=
  .elem "div" [("class", "product")]
    [ .elem "img" [("class", "product"), ("src", "https://example.com/images/a.jpg"),
                   ("width", "50"), ("height", "50")] [] ]

/-- The same document with the image at 400 by 400. -/
def c2Doc400 : Node :=
  .elem "div" [("class", "product")]
    [ .elem "img" [("class", "product"), ("src", "https://example.com/images/a.jpg"),
                   ("width", "400"), ("height", "400")] [] ]

/-- A fetched page with no heading, title, prices, images or matches of any
extraction heuristic. -/
def c3Doc : Node := .elem "p" [] []

/-- A world whose every fetch succeeds and parses to the bare page. -/
def c3WorldFetched : World := ⟨fun _ => some c3Doc⟩

/-- A world whose every fetch fails. -/
def worldNoFetch : World := ⟨fun _ => none⟩

/-- A product page from which every name heuristic falls through to the
Unknown sentinel. -/
def c7Doc : Node := .elem "div" [] [.text "hello"]

/-- A world delivering the sentinel-name page for every URL. -/
def c7World : World := ⟨fun _ => some c7Doc⟩

/-- A listing page with two product links, discovered alpha first. -/
def c8Doc : Node :=
  .elem "div" []
    [ .elem "a" [("href", "/product/alpha")] [.text "A"],
      .elem "a" [("href", "/product/beta")] [.text "B"] ]

/-- Order-preserving deduplication: one legitimate semantics of Python's
list(set(...)). -/
def setListKeepOrder : List String → List String := fun l => l.dedup

/-- Order-reversing deduplication: another legitimate semantics of
Python's list(set(...)), since set iteration order is hash-driven. -/
def setListRev : List String → List String := fun l => l.dedup.reverse

/-- Which functions are a faithful semantics of list(set(...)) on strings:
the output has no duplicates and exactly the input's members.  Iteration
order of a CPython set is hash-table order, which fixes no relation to
insertion order. -/
def SetSemantics (f : List String → List String) : Prop :=
  ∀ l, (f l).Nodup ∧ ∀ x, x ∈ f l ↔ x ∈ l

/-- A network that answers every image GET with a good image body. -/
def netGood : String → NetOutcome := fun _ => .resp 200 "image/jpeg" (some [1, 2, 3])

/-- A network whose connection drops while the body is being read: the GET
succeeds with status 200 but reading the body raises. -/
def netBodyDrop : String → NetOutcome := fun _ => .resp 200 "image/jpeg" none

/-! ## Claim theorems -/

/-- C1: the spec says price extraction normalizes a decimal comma to a
point before parsing, so that "€21.90/m excl. VAT | 1m to 5m" yields 21.90
and "$45,00" yields 45.00.  The code evaluated at those inputs: the euro
example does yield 21.90 through both the fabric-house extractor and the
base extractor, but "$45,00" yields nothing from either, because
BaseScraper.extract_price deletes every comma from the text before its
regexes run, leaving "$4500", which no pattern matches — the
group(1).replace(',', '.') normalization the spec describes is dead
code. -/
theorem c1_price_extraction_eval :
    fh_extract_price_text "€21.90/m excl. VAT | 1m to 5m" = some ((219 : ℚ) / 10)
    ∧ extract_price "€21.90/m excl. VAT | 1m to 5m" = some ((219 : ℚ) / 10)
    ∧ extract_price "$45,00" = none
    ∧ fh_extract_price_text "$45,00" = none := by
  refine ⟨?_, ?_, rfl, rfl⟩
  · have h1 : fh_extract_price_text "€21.90/m excl. VAT | 1m to 5m"
        = some ((1 : ℚ) * (((21 : ℕ) : ℚ) + ((90 : ℕ) : ℚ) / (10 : ℚ) ^ (2 : ℕ))) := rfl
    rw [h1]; norm_num
  · have h2 : extract_price "€21.90/m excl. VAT | 1m to 5m"
        = some ((1 : ℚ) * (((21 : ℕ) : ℚ) + ((90 : ℕ) : ℚ) / (10 : ℚ) ^ (2 : ℕ))) := rfl
    rw [h2]; norm_num

/-- C2 counterexample: the claim says a product-class image candidate with
width and height 50 is rejected by image-URL extraction and its URL is not
returned.  On a document whose only image is exactly such a candidate, the
selector chain does reject it, but extraction then falls back to the
largest-image scan, which returns that same URL. -/
theorem c2_small_image_url_returned :
    imgSizeOk (some "50") (some "50") = false
    ∧ fh_extract_image_url c2Doc50 c2Base = some c2Url :=
  ⟨rfl, rfl⟩

/-- C2 amended: the 50 by 50 candidate is rejected by the selector chain's
size filter and the 400 by 400 candidate is accepted there and its URL
returned; but rejection by the chain does not keep the URL from being
returned, because the largest-image fallback can still select the
rejected image when no chain candidate survives. -/
theorem c2_size_filter_and_fallback :
    imgSizeOk (some "50") (some "50") = false
    ∧ imgSizeOk (some "400") (some "400") = true
    ∧ fh_extract_image_url c2Doc400 c2Base = some c2Url
    ∧ fh_extract_image_url c2Doc50 c2Base = some c2Url :=
  ⟨rfl, rfl, rfl, rfl⟩

/-- C3 counterexample: the claim says an empty record occurs only on fetch
failure.  Here a world fetches and parses a page successfully, and the
generic scrape of it still returns the empty record, so emptiness does not
distinguish an unreachable page from a reachable page with nothing
extractable. -/
theorem c3_empty_record_despite_fetch :
    c3WorldFetched.fetchDoc "https://x.com/p" = some c3Doc
    ∧ genericScrape c3WorldFetched "https://x.com/p" = Except.ok emptyFabric :=
  ⟨rfl, rfl⟩

/-- C3 amended: when the fetch fails the item scraper returns the empty
record and raises nothing; but a successfully fetched page with nothing
extractable also yields the empty record, so a caller cannot tell the two
apart by emptiness. -/
theorem c3_fetch_failure_gives_empty (w : World) (url : String)
    (h : w.fetchDoc url = none) : genericScrape w url = Except.ok emptyFabric := by
  unfold genericScrape
  rw [h]

/-- Witness for the amended C3 theorem at a concrete failing world. -/
theorem c3_fetch_failure_gives_empty_witness :
    worldNoFetch.fetchDoc "https://x.com/p" = none
    ∧ genericScrape worldNoFetch "https://x.com/p" = Except.ok emptyFabric :=
  ⟨rfl, c3_fetch_failure_gives_empty worldNoFetch "https://x.com/p" rfl⟩

/-- C6: the claim (with the spec) requires that a failed download leave no
partial file at the derived cache path.  In the code the file is opened
for writing before the body read is awaited, so when the connection drops
mid-body the call returns None yet an empty file stays at the path — and
the very next call for the same pair returns that empty file as a cache
hit without fetching. -/
theorem c6_partial_file_becomes_cache_hit :
    (download_image netBodyDrop [] "https://example.com/images/a.jpg" "Blue Wool").path = none
    ∧ (download_image netBodyDrop [] "https://example.com/images/a.jpg" "Blue Wool").fs
        = [(derivePath "https://example.com/images/a.jpg" "Blue Wool", [])]
    ∧ download_image netBodyDrop
        (download_image netBodyDrop [] "https://example.com/images/a.jpg" "Blue Wool").fs
        "https://example.com/images/a.jpg" "Blue Wool"
      = { path := some (derivePath "https://example.com/images/a.jpg" "Blue Wool"),
          fs := (download_image netBodyDrop [] "https://example.com/images/a.jpg" "Blue Wool").fs,
          fetches := 0 } :=
  ⟨rfl, rfl, rfl⟩

/-- C8: the claim says deduplicated links are scraped in discovery order,
making the scrape sequence deterministic.  The source returns
list(set(product_urls)), whose order is the hash-table order of a CPython
set: nothing ties it to discovery order.  Two legitimate set semantics —
both deduplicating, both preserving membership — give the embedded
extractor opposite orders on the same page, on which links were discovered
alpha before beta. -/
theorem c8_set_order_not_discovery_order :
    SetSemantics setListKeepOrder
    ∧ SetSemantics setListRev
    ∧ fh_extract_product_urls setListKeepOrder c8Doc "https://fabrichouse.com/int/all-fabrics/"
        = ["https://fabrichouse.com/product/alpha", "https://fabrichouse.com/product/beta"]
    ∧ fh_extract_product_urls setListRev c8Doc "https://fabrichouse.com/int/all-fabrics/"
        = ["https://fabrichouse.com/product/beta", "https://fabrichouse.com/product/alpha"] :=
  ⟨fun l => ⟨List.nodup_dedup l, fun _ => List.mem_dedup⟩,
   fun l => ⟨(List.nodup_reverse).mpr (List.nodup_dedup l),
             fun _ => (List.mem_reverse).trans List.mem_dedup⟩,
   rfl, rfl⟩

/-- C9 counterexample: the claim says a URL whose domain is registered in
the static mapping receives that domain's specialized scraper.  The domain
fabrichouse.com is a key of the mapping, yet the selector returns the
generic scraper for it, not the repository's FabricHouseScraper, because
the registered value is None. -/
theorem c9_registered_domain_gets_generic :
    (scrapersMap.lookup "fabrichouse.com").isSome = true
    ∧ get_scraper "https://www.fabrichouse.com/product/x" = some ScraperKind.generic
    ∧ ScraperKind.generic ≠ ScraperKind.fabricHouse :=
  ⟨rfl, rfl, by decide⟩

/-- C9 amended: a registered domain receives its specialized scraper only
when its mapping value is an actual scraper class; in the current
configuration the sole entry maps to None, so every URL — registered
domain or not — receives the generic fallback, and the selector never
returns None. -/
theorem c9_selector_always_generic (url : String) :
    get_scraper url = some ScraperKind.generic := by
  unfold get_scraper scrapersMap
  simp only [List.lookup]
  cases h : (pyReplace (urlNetloc url) "www." "" == "fabrichouse.com") <;> simp [h]

/-- C10: every listing result carries total_count equal to the length of
its fabrics sequence and is_listing_page true, in every terminal state,
because the single return site builds the record that way. -/
theorem c10_listing_result_invariant (w : World) (setList : List String → List String)
    (url : String) :
    (fh_scrape_listing_page w setList url).total_count
      = (fh_scrape_listing_page w setList url).fabrics.length
    ∧ (fh_scrape_listing_page w setList url).is_listing_page = true :=
  ⟨rfl, rfl⟩

/-- One unfolding of the pagination loop, as seen by its page trace: an
iteration either terminates (fetch failure, no links, no next-page signal,
or the post-increment cap check) recording just its page, or recurses to
the next consecutive page, which the cap check bounds by 100. -/
theorem fhListingGo_step (w : World) (setList : List String → List String)
    (baseUrl : String) (fuel page : Nat) :
    (fhListingGo w setList baseUrl (fuel + 1) page).2 = [page]
    ∨ ((fhListingGo w setList baseUrl (fuel + 1) page).2
        = page :: (fhListingGo w setList baseUrl fuel (page + 1)).2 ∧ page + 1 ≤ 100) := by
  rw [fhListingGo]
  cases hf : w.fetchDoc (fh_build_page_url baseUrl page) with
  | none => exact Or.inl rfl
  | some doc =>
      by_cases hu : (fh_extract_product_urls setList doc baseUrl).isEmpty = true
      · left; simp [hu]
      · by_cases hn : fh_has_next_page doc = true
        · by_cases hp : page + 1 > 100
          · left; simp [hu, hn, hp]
          · exact Or.inr ⟨by simp [hu, hn, hp], by omega⟩
        · left; simp [hu, hn]

/-- The page trace of the loop started at any page within the cap is a
run of consecutive indices that never passes 101. -/
theorem fhListingGo_trace_shape (w : World) (setList : List String → List String)
    (baseUrl : String) :
    ∀ fuel page, page ≤ 100 → 101 - page ≤ fuel →
      ∃ k, 1 ≤ k ∧ page + k ≤ 101
        ∧ (fhListingGo w setList baseUrl fuel page).2 = List.range' page k := by
  intro fuel
  induction fuel with
  | zero => intro page h1 h2; omega
  | succ n ih =>
      intro page h1 h2
      rcases fhListingGo_step w setList baseUrl n page with h | ⟨h, hle⟩
      · exact ⟨1, le_refl 1, by omega, by rw [h]; rfl⟩
      · obtain ⟨k, hk1, hk2, hk3⟩ := ih (page + 1) (by omega) (by omega)
        exact ⟨k + 1, by omega, by omega, by rw [h, hk3]; rfl⟩

/-- C4: in every listing crawl, whatever the worlds' pagination signals,
the processed page indices are exactly 1, 2, ..., k for some k between 1
and 100: the index starts at 1, increases by exactly 1 per iteration, and
the crawl never processes more than 100 pages. -/
theorem c4_pages_start_one_increment_capped (w : World)
    (setList : List String → List String) (url : String) :
    ∃ k, 1 ≤ k ∧ k ≤ 100 ∧ fhListingTrace w setList url = List.range' 1 k := by
  obtain ⟨k, hk1, hk2, hk3⟩ := fhListingGo_trace_shape w setList url 150 1 (by omega) (by omega)
  exact ⟨k, hk1, by omega, hk3⟩

/-- A record the listing loop keeps never carries the Unknown sentinel as
its name, because the keep test requires a truthy name different from it
and attaching the source URL leaves the name unchanged. -/
theorem scrapeKeep_name_ne_unknown (w : World) (u : String) (r : FabricData)
    (h : scrapeKeep w u = some r) : (r.name == some "Unknown") = false := by
  unfold scrapeKeep at h
  split at h
  · exact absurd h (by simp)
  · next d =>
      split at h
      · next hk =>
          cases h
          unfold keepFabric at hk
          simp only [Bool.and_eq_true] at hk
          simpa using hk.2
      · exact absurd h (by simp)

/-- Every record a page contributes to the accumulator passes the keep
test, so none is named Unknown. -/
theorem keptList_no_unknown (w : World) (urls : List String) :
    (urls.filterMap (scrapeKeep w)).all (fun r => !(r.name == some "Unknown")) = true := by
  rw [List.all_eq_true]
  intro r hr
  rw [List.mem_filterMap] at hr
  obtain ⟨u, _, hu⟩ := hr
  simp [scrapeKeep_name_ne_unknown w u r hu]

/-- One unfolding of the pagination loop, as seen by its accumulated
records: empty, one page's kept records, or one page's kept records
followed by the rest of the crawl. -/
theorem fhListingGo_fst (w : World) (setList : List String → List String)
    (baseUrl : String) (fuel page : Nat) :
    (fhListingGo w setList baseUrl (fuel + 1) page).1 = []
    ∨ (∃ urls : List String, (fhListingGo w setList baseUrl (fuel + 1) page).1
          = urls.filterMap (scrapeKeep w))
    ∨ (∃ urls : List String, (fhListingGo w setList baseUrl (fuel + 1) page).1
          = urls.filterMap (scrapeKeep w)
              ++ (fhListingGo w setList baseUrl fuel (page + 1)).1) := by
  rw [fhListingGo]
  cases hf : w.fetchDoc (fh_build_page_url baseUrl page) with
  | none => exact Or.inl rfl
  | some doc =>
      by_cases hu : (fh_extract_product_urls setList doc baseUrl).isEmpty = true
      · left; simp [hu]
      · by_cases hn : fh_has_next_page doc = true
        · by_cases hp : page + 1 > 100
          · right; left
            exact ⟨fh_extract_product_urls setList doc baseUrl, by simp [hu, hn, hp]⟩
          · right; right
            exact ⟨fh_extract_product_urls setList doc baseUrl, by simp [hu, hn, hp]⟩
        · right; left
          exact ⟨fh_extract_product_urls setList doc baseUrl, by simp [hu, hn]⟩

/-- No record accumulated anywhere in the pagination loop is named
Unknown. -/
theorem fhListingGo_no_unknown (w : World) (setList : List String → List String)
    (baseUrl : String) : ∀ fuel page,
    ((fhListingGo w setList baseUrl fuel page).1.all
      (fun r => !(r.name == some "Unknown"))) = true := by
  intro fuel
  induction fuel with
  | zero => intro page; rfl
  | succ n ih =>
      intro page
      rcases fhListingGo_fst w setList baseUrl n page with h | ⟨urls, h⟩ | ⟨urls, h⟩
      · rw [h]; rfl
      · rw [h]; exact keptList_no_unknown w urls
      · rw [h, List.all_append, keptList_no_unknown w urls, ih (page + 1)]
        rfl

/-- C7: an item whose extracted name is the Unknown sentinel is excluded
from every listing crawl's accumulated results, while a direct
single-item scrape of the same page still returns the record with name
"Unknown" (the sentinel string is truthy, so the name field is set). -/
theorem c7_unknown_excluded_from_listing (w : World)
    (setList : List String → List String) (lurl purl : String) (doc : Node)
    (hfetch : w.fetchDoc purl = some doc)
    (hname : fh_extract_name doc = Except.ok "Unknown") :
    ((fh_scrape_listing_page w setList lurl).fabrics.all
        (fun r => !(r.name == some "Unknown"))) = true
    ∧ ∃ d, fh_scrape_product_page w purl = Except.ok d ∧ d.name = some "Unknown" := by
  constructor
  · exact fhListingGo_no_unknown w setList lurl 150 1
  · unfold fh_scrape_product_page
    simp only [hfetch, hname]
    exact ⟨_, rfl, rfl⟩

/-- Witness for C7 at a concrete world whose product pages fall through
every name heuristic to the Unknown sentinel. -/
theorem c7_unknown_witness :
    (c7World.fetchDoc "https://fabrichouse.com/product/x" = some c7Doc
      ∧ fh_extract_name c7Doc = Except.ok "Unknown")
    ∧ (((fh_scrape_listing_page c7World setListKeepOrder
          "https://fabrichouse.com/int/all-fabrics/").fabrics.all
            (fun r => !(r.name == some "Unknown"))) = true
        ∧ ∃ d, fh_scrape_product_page c7World "https://fabrichouse.com/product/x" = Except.ok d
            ∧ d.name = some "Unknown") :=
  ⟨⟨rfl, rfl⟩,
   c7_unknown_excluded_from_listing c7World setListKeepOrder
     "https://fabrichouse.com/int/all-fabrics/" "https://fabrichouse.com/product/x" c7Doc rfl rfl⟩

/-- C5: the image resolver is idempotent.  The derived cache path is a
pure function of the (image_url, display_name) pair; starting from a cold
cache, a first call that returns a path has performed exactly one fetch
and returned exactly the derived path, and a second call with the same
pair returns the same path with zero fetches and an unchanged
directory. -/
theorem c5_download_idempotent (net : String → NetOutcome) (fs : FileSys)
    (imageUrl fabricName p : String)
    (hcold : fsLookup fs (derivePath imageUrl fabricName) = none)
    (hok : (download_image net fs imageUrl fabricName).path = some p) :
    p = derivePath imageUrl fabricName
    ∧ (download_image net fs imageUrl fabricName).fetches = 1
    ∧ download_image net (download_image net fs imageUrl fabricName).fs imageUrl fabricName
        = { path := some p, fs := (download_image net fs imageUrl fabricName).fs,
            fetches := 0 } := by
  by_cases hurl : imageUrl = ""
  · rw [download_image, if_pos hurl] at hok
    exact absurd hok (by simp)
  · rcases hnet : net imageUrl with _ | ⟨status, ct, body⟩
    · have hcall : download_image net fs imageUrl fabricName
          = { path := none, fs := fs, fetches := 1 } := by
        rw [download_image, if_neg hurl]
        simp only [hcold, hnet]
      rw [hcall] at hok
      exact absurd hok (by simp)
    · by_cases hstatus : status = 200
      · cases body with
        | none =>
            have hcall : download_image net fs imageUrl fabricName
                = { path := none,
                    fs := (derivePath imageUrl fabricName, []) :: fs, fetches := 1 } := by
              rw [download_image, if_neg hurl]
              simp only [hcold, hnet, if_pos hstatus]
            rw [hcall] at hok
            exact absurd hok (by simp)
        | some b =>
            have hcall : download_image net fs imageUrl fabricName
                = { path := some (derivePath imageUrl fabricName),
                    fs := (derivePath imageUrl fabricName, b) :: fs, fetches := 1 } := by
              rw [download_image, if_neg hurl]
              simp only [hcold, hnet, if_pos hstatus]
            rw [hcall] at hok
            have h2 : some (derivePath imageUrl fabricName) = some p := hok
            have hp : derivePath imageUrl fabricName = p := Option.some.inj h2
            subst hp
            refine ⟨rfl, by rw [hcall], ?_⟩
            rw [hcall, download_image, if_neg hurl]
            simp [fsLookup, List.lookup]
      · have hcall : download_image net fs imageUrl fabricName
            = { path := none, fs := fs, fetches := 1 } := by
          rw [download_image, if_neg hurl]
          simp only [hcold, hnet, if_neg hstatus]
        rw [hcall] at hok
        exact absurd hok (by simp)

/-- Witness for C5: a concrete good network and a cold cache; both
hypotheses are discharged by evaluation. -/
theorem c5_download_idempotent_witness :
    fsLookup [] (derivePath "https://example.com/images/a.jpg" "Blue Wool") = none
    ∧ ((download_image netGood [] "https://example.com/images/a.jpg" "Blue Wool").path
        = some "static/images/Blue_Wool_bbc4e307.jpg")
    ∧ ("static/images/Blue_Wool_bbc4e307.jpg"
          = derivePath "https://example.com/images/a.jpg" "Blue Wool"
       ∧ (download_image netGood [] "https://example.com/images/a.jpg" "Blue Wool").fetches = 1
       ∧ download_image netGood
           (download_image netGood [] "https://example.com/images/a.jpg" "Blue Wool").fs
           "https://example.com/images/a.jpg" "Blue Wool"
         = { path := some "static/images/Blue_Wool_bbc4e307.jpg",
             fs := (download_image netGood [] "https://example.com/images/a.jpg" "Blue Wool").fs,
             fetches := 0 }) :=
  ⟨rfl, rfl,
   c5_download_idempotent netGood [] "https://example.com/images/a.jpg" "Blue Wool"
     "static/images/Blue_Wool_bbc4e307.jpg" rfl rfl⟩
